import Mathlib

/-!
Shallow embedding of `src/mcpcli/chat_handler.py`: the tool-augmented
conversation loop (`handle_chat_mode`, `process_conversation`), the
name-to-server registry built from discovered tools, and the per-call
dispatch of model-requested tool invocations.

External collaborators (the LLM completion client, `json.loads`, the
MCP transport `send_call_tool` / `fetch_tools`, and the system-prompt
generator) are modelled as an `Oracle` of pure functions typed at the
interface boundary the code uses; raised exceptions are modelled with
`Except String`.
-/

namespace McpCli

/-- One discovered tool descriptor; only `tool.get('name')` is inspected
by the orchestration code (`none` models a missing/null name key). -/
structure Tool where
  name : Option String
deriving DecidableEq

/-- Parsed tool-call arguments (the result of `json.loads`); `empty`
is the Python empty dict `{}` substituted on parse failure. -/
inductive Args where
  | empty
  | parsed (repr1 : String)
deriving DecidableEq

/-- The duck-typed `tool_call.function` object. For `name` and
`arguments`, the outer `Option` models attribute presence (a missing
attribute raises `AttributeError`), the inner one a `None` value. -/
structure ToolFunction where
  name : Option (Option String)
  arguments : Option (Option String)
deriving DecidableEq

/-- One tool call object returned by the completion client. The outer
`Option` on `function` models attribute presence. -/
structure ToolCall where
  id : String
  function : Option ToolFunction
deriving DecidableEq

/-- The tool-call record stored inside the assistant message dict
(lines 93-102 of chat_handler.py). -/
structure StoredCall where
  id : String
  name : Option String
  arguments : Option String
deriving DecidableEq

/-- One entry of `conversation_history`. An empty `toolCalls` list
models an assistant dict without a `tool_calls` key. -/
inductive Turn where
  | system (content : String)
  | user (content : String)
  | assistant (content : String) (toolCalls : List StoredCall)
  | tool (toolCallId : String) (name : String) (content : String)
deriving DecidableEq

/-- The completion dict returned by `client.create_completion`:
`response` (`none` models a missing key) and `tool_calls`. -/
structure Completion where
  response : Option String
  tool_calls : List ToolCall
deriving DecidableEq

/-- The dict returned by `send_call_tool`. For `content`, the outer
`Option` models key presence, the inner a JSON-null value. -/
structure CallResult where
  isError : Bool
  error : Option String
  content : Option (Option String)
deriving DecidableEq

/-- One entry of the local `tool_responses` list (lines 148-169). -/
structure ToolResponse where
  tool_call_id : String
  name : String
  content : Option String
deriving DecidableEq

/-- Observable external interactions of one session, used to state
that a completion or backend call was (not) attempted. -/
inductive Event where
  | llmCall (history : List Turn)
  | backendCall (server : Nat) (tool : String) (args : Args)
deriving DecidableEq

/-- The external collaborators, typed at the boundary the code uses.
`createCompletion` takes the provider and model the `LLMClient` was
constructed with; backends are identified by their index in
`server_streams`. -/
structure Oracle where
  createCompletion : String → String → List Turn → Except String Completion
  parseJson : String → Except String Args
  sendCallTool : Nat → String → Args → Except String CallResult
  systemPrompt : List Tool → String

/-- Python `str.lower()` (ASCII case mapping, character by character). -/
def pyLower (s : String) : String :=
  ⟨s.data.map Char.toLower⟩

/-- Python `str.strip()`: remove leading and trailing whitespace. -/
def pyStrip (s : String) : String :=
  ⟨((s.data.dropWhile Char.isWhitespace).reverse.dropWhile Char.isWhitespace).reverse⟩

/-- The `tool_to_server` mapping: an insertion-ordered Python dict
from tool name to the owning server's index. -/
abbrev Registry := List (String × Nat)

/-- Python dict assignment `d[k] = v`: updates the existing binding in
place or appends a new one at the end. -/
def dictInsert : Registry → String → Nat → Registry
  | [], k, v => [(k, v)]
  | p :: rest, k, v =>
    if p.1 = k then (k, v) :: rest else p :: dictInsert rest k v

/-- Python `d.get(k)`. -/
def registryLookup (reg : Registry) (name : String) : Option Nat :=
  (reg.find? fun p => p.1 == name).map Prod.snd

/-- Lines 26-30: for each discovered tool of server `i`, if its name is
truthy, append the tool to `tools` and route the name to server `i`. -/
def registerTools (i : Nat) (serverTools : List Tool)
    (acc : List Tool × Registry) : List Tool × Registry :=
  serverTools.foldl
    (fun acc tool =>
      match tool.name with
      | some nm => if nm = "" then acc else (acc.1 ++ [tool], dictInsert acc.2 nm i)
      | none => acc)
    acc

/-- Lines 22-30: `for i, (read, write) in enumerate(server_streams)`. -/
def buildRegistryAux : Nat → List (List Tool) → List Tool × Registry → List Tool × Registry
  | _, [], acc => acc
  | i, ts :: rest, acc => buildRegistryAux (i + 1) rest (registerTools i ts acc)

/-- Discovery phase of `handle_chat_mode`: the accumulated `tools`
list and the `tool_to_server` dict, given each server's fetched
tool list. -/
def buildRegistry (servers : List (List Tool)) : List Tool × Registry :=
  buildRegistryAux 0 servers ([], [])

/-- The `(name, server)` registrations server `i` performs, in order. -/
def regsOf (i : Nat) (ts : List Tool) : List (String × Nat) :=
  ts.filterMap fun t =>
    match t.name with
    | some nm => if nm = "" then none else some (nm, i)
    | none => none

/-- The registration events `(name, server)` in the order the discovery
loop performs them, used to characterize the built registry. -/
def registrationsAux : Nat → List (List Tool) → List (String × Nat)
  | _, [] => []
  | i, ts :: rest => regsOf i ts ++ registrationsAux (i + 1) rest

def registrations (servers : List (List Tool)) : List (String × Nat) :=
  registrationsAux 0 servers

/-- Replaying a list of dict assignments. -/
def regFold (regs : List (String × Nat)) (init : Registry) : Registry :=
  regs.foldl (fun r p => dictInsert r p.1 p.2) init

/-- Lines 144-169: invoke `send_call_tool` and normalize its result
into a `tool_responses` entry; the event records the attempted call. -/
def callBackend (o : Oracle) (server : Nat) (toolName : String) (arguments : Args)
    (callId : String) : Except String (Option ToolResponse) × List Event :=
  (match o.sendCallTool server toolName arguments with
   | .error e => .error e
   | .ok result =>
     if result.isError then
       .ok (some ⟨callId, toolName, some ("Error: " ++ result.error.getD "Unknown error")⟩)
     else
       .ok (some ⟨callId, toolName,
         match result.content with
         | none => some "No content"
         | some v => v⟩),
   [Event.backendCall server toolName arguments])

/-- Lines 123-131: the raw argument string (a falsy value replaced by
`"{}"`) fed to `json.loads`, with the empty dict substituted on parse
failure. -/
def parsedArguments (o : Oracle) (argVal : Option String) : Args :=
  match o.parseJson
      (match argVal with
       | none => "\x7b\x7d"
       | some s => if s = "" then "\x7b\x7d" else s) with
  | .ok a => a
  | .error _ => Args.empty

/-- Lines 106-169, one iteration: resolve the tool name, skip (with no
response entry) on a missing/falsy name or an unregistered tool, parse
the raw arguments substituting `{}` on falsy value or parse failure,
then call the backend. `.ok none` models `continue`. -/
def dispatchCall (o : Oracle) (reg : Registry) (tc : ToolCall) :
    Except String (Option ToolResponse) × List Event :=
  match tc.function with
  | none => (.ok none, [])
  | some fn =>
    match fn.name with
    | none => (.ok none, [])
    | some none => (.ok none, [])
    | some (some toolName) =>
      if toolName = "" then (.ok none, [])
      else
        match registryLookup reg toolName with
        | none => (.ok none, [])
        | some server =>
          match fn.arguments with
          | none => callBackend o server toolName Args.empty tc.id
          | some argVal => callBackend o server toolName (parsedArguments o argVal) tc.id

/-- The sequential dispatch loop over one round's tool calls; a raised
exception aborts the loop (and, upstream, the round). -/
def dispatchAll (o : Oracle) (reg : Registry) :
    List ToolCall → Except String (List ToolResponse) × List Event
  | [] => (.ok [], [])
  | tc :: rest =>
    match dispatchCall o reg tc with
    | (.error e, evs) => (.error e, evs)
    | (.ok r, evs) =>
      match dispatchAll o reg rest with
      | (.error e, evs2) => (.error e, evs ++ evs2)
      | (.ok rs, evs2) => (.ok (r.toList ++ rs), evs ++ evs2)

/-- Lines 172-176: a `tool_responses` entry becomes a history turn,
with a `None` content replaced by the sentinel. -/
def toTurn (r : ToolResponse) : Turn :=
  Turn.tool r.tool_call_id r.name (r.content.getD "No response from tool")

/-- Lines 93-102: the assistant message's `tool_calls` list; attribute
access on each call raises if `function`, `name` or `arguments` is
missing. -/
def extractStoredCalls : List ToolCall → Except String (List StoredCall)
  | [] => .ok []
  | tc :: rest =>
    match tc.function with
    | none => .error "AttributeError"
    | some fn =>
      match fn.name, fn.arguments with
      | some nm, some args =>
        (match extractStoredCalls rest with
         | .ok s => .ok (⟨tc.id, nm, args⟩ :: s)
         | .error e => .error e)
      | _, _ => .error "AttributeError"

/-- Line 84: `completion.get("response", "No response")`. -/
def responseText (c : Completion) : String :=
  c.response.getD "No response"

/-- Line 92: the assistant-turn content when tool calls are present. -/
def assistantText (c : Completion) : String :=
  if responseText c = "" then "I\x27ll help you with that." else responseText c

/-- Line 184: `completion.get("response") or "I processed ..."`. -/
def followupText (r : Option String) : String :=
  match r with
  | none => "I processed the tool responses but have nothing specific to add."
  | some s =>
    if s = "" then "I processed the tool responses but have nothing specific to add." else s

inductive RoundStatus where
  | exited
  | completed
  | caught (err : String)
deriving DecidableEq

/-- Outcome of one loop iteration: how it ended, the conversation
history afterwards, and the external calls it made. -/
structure RoundResult where
  status : RoundStatus
  hist : List Turn
  events : List Event
deriving DecidableEq

/-- Lines 79-198, after the user turn was appended: first completion,
assistant turn, sequential dispatch, tool-result turns, followup
completion, final assistant turn. A raised exception surfaces as
`.caught` with the history as mutated so far. -/
def roundBody (o : Oracle) (p m : String) (reg : Registry) (hist : List Turn) : RoundResult :=
  match o.createCompletion p m hist with
  | .error e => ⟨.caught e, hist, [Event.llmCall hist]⟩
  | .ok completion =>
    if completion.tool_calls.isEmpty then
      ⟨.completed, hist ++ [Turn.assistant (responseText completion) []], [Event.llmCall hist]⟩
    else
      match extractStoredCalls completion.tool_calls with
      | .error e => ⟨.caught e, hist, [Event.llmCall hist]⟩
      | .ok stored =>
        match dispatchAll o reg completion.tool_calls with
        | (.error e, devs) =>
          ⟨.caught e, hist ++ [Turn.assistant (assistantText completion) stored],
           Event.llmCall hist :: devs⟩
        | (.ok rs, devs) =>
          match o.createCompletion p m
              (hist ++ [Turn.assistant (assistantText completion) stored] ++ rs.map toTurn) with
          | .error e =>
            ⟨.caught e, hist ++ [Turn.assistant (assistantText completion) stored] ++ rs.map toTurn,
             Event.llmCall hist :: devs
               ++ [Event.llmCall (hist ++ [Turn.assistant (assistantText completion) stored]
                    ++ rs.map toTurn)]⟩
          | .ok c2 =>
            ⟨.completed,
             hist ++ [Turn.assistant (assistantText completion) stored] ++ rs.map toTurn
               ++ [Turn.assistant (followupText c2.response) []],
             Event.llmCall hist :: devs
               ++ [Event.llmCall (hist ++ [Turn.assistant (assistantText completion) stored]
                    ++ rs.map toTurn)]⟩

/-- Lines 70-202, one `while True` iteration on an already-stripped
user message: the exit check (line 71-73) runs before any completion
call; otherwise the user turn is appended and the round body runs. -/
def processRound (o : Oracle) (p m : String) (reg : Registry) (hist : List Turn)
    (userMessage : String) : RoundResult :=
  if pyLower userMessage = "exit" ∨ pyLower userMessage = "quit" then
    ⟨.exited, hist, []⟩
  else
    roundBody o p m reg (hist ++ [Turn.user userMessage])

/-- Line 70: `Prompt.ask(...).strip()`. -/
def readUserMessage (raw : String) : String :=
  pyStrip raw

structure SessionResult where
  hist : List Turn
  events : List Event
  exited : Bool
deriving DecidableEq

/-- The `while True` loop over a finite stream of raw user inputs.
`exited = true` means the loop ended via `break`; a caught exception
continues to the next input, leaving the history as the round left it. -/
def sessionLoop (o : Oracle) (p m : String) (reg : Registry) :
    List String → List Turn → SessionResult
  | [], hist => ⟨hist, [], false⟩
  | raw :: rest, hist =>
    match processRound o p m reg hist (readUserMessage raw) with
    | ⟨.exited, h, evs⟩ => ⟨h, evs, true⟩
    | ⟨.completed, h, evs⟩ =>
      let s := sessionLoop o p m reg rest h
      ⟨s.hist, evs ++ s.events, s.exited⟩
    | ⟨.caught _, h, evs⟩ =>
      let s := sessionLoop o p m reg rest h
      ⟨s.hist, evs ++ s.events, s.exited⟩

/-- The process environment variables read at lines 63-64. -/
structure Env where
  llmProvider : Option String
  llmModel : Option String

/-- Lines 63-64: the provider and model the `LLMClient` is constructed
with, from `LLM_PROVIDER` / `LLM_MODEL` with defaults. -/
def clientConfig (env : Env) : String × String :=
  (env.llmProvider.getD "openai", env.llmModel.getD "gpt-4o-mini")

/-- `process_conversation`: constructs the client from the environment
(ignoring the `client` argument) and runs the loop. -/
def process_conversation (o : Oracle) (env : Env) (reg : Registry)
    (hist : List Turn) (rawInputs : List String) : SessionResult :=
  sessionLoop o (clientConfig env).1 (clientConfig env).2 reg rawInputs hist

inductive ChatResult where
  | noTools
  | ran (s : SessionResult)
deriving DecidableEq

/-- `handle_chat_mode`: build the registry from each server's fetched
tools; with no tools, return before the conversation loop; otherwise
seed the history with the system prompt and run the loop. The
`provider` and `model` parameters are accepted but never used. -/
def handle_chat_mode (o : Oracle) (env : Env) (servers : List (List Tool))
    (provider model : String) (rawInputs : List String) : ChatResult :=
  if (buildRegistry servers).1.isEmpty then .noTools
  else
    .ran (process_conversation o env (buildRegistry servers).2
      [Turn.system (o.systemPrompt (buildRegistry servers).1)] rawInputs)

/-- External calls made by a whole `handle_chat_mode` run. -/
def ChatResult.events : ChatResult → List Event
  | .noTools => []
  | .ran s => s.events

/-- Name routing of one call as the dispatch loop computes it: the
tool name when the call will reach a backend, `none` when it is
skipped (missing attribute, falsy name, or unregistered name). -/
def innerName (tc : ToolCall) : Option String :=
  match tc.function with
  | none => none
  | some fn =>
    match fn.name with
    | none => none
    | some v => v

def dispatchedName (reg : Registry) (tc : ToolCall) : Option String :=
  match innerName tc with
  | none => none
  | some n =>
    if n = "" then none
    else if (registryLookup reg n).isSome then some n else none

/-- A nameless call: skipped at lines 107-115. -/
def isMalformed (tc : ToolCall) : Bool :=
  match innerName tc with
  | none => true
  | some n => n = ""

/-- A named call whose tool is on no server: skipped at lines 117-120. -/
def isNotFound (reg : Registry) (tc : ToolCall) : Bool :=
  match innerName tc with
  | none => false
  | some n => if n = "" then false else (registryLookup reg n).isNone

/-- Count of ToolResult turns in a history fragment. -/
def toolTurnCount (ts : List Turn) : Nat :=
  ts.countP fun t =>
    match t with
    | Turn.tool _ _ _ => true
    | _ => false

/-- Whether an event is a backend invocation of the named tool. -/
def callsTool (n : String) : Event → Bool
  | Event.backendCall _ nm _ => nm == n
  | _ => false

/-! ### Registry lemmas -/

lemma registryLookup_nil (name : String) : registryLookup [] name = none := rfl

lemma registryLookup_cons (p : String × Nat) (rest : Registry) (name : String) :
    registryLookup (p :: rest) name =
      if p.1 = name then some p.2 else registryLookup rest name := by
  by_cases h : p.1 = name
  · simp [registryLookup, List.find?, h]
  · have hb : (p.1 == name) = false := beq_eq_false_iff_ne.mpr h
    simp [registryLookup, List.find?, hb, h]

lemma dictInsert_lookup (reg : Registry) (k : String) (v : Nat) (name : String) :
    registryLookup (dictInsert reg k v) name =
      if name = k then some v else registryLookup reg name := by
  induction reg with
  | nil =>
    simp only [dictInsert, registryLookup_cons, registryLookup_nil]
    by_cases h : name = k
    · simp [h]
    · rw [if_neg (fun hh : k = name => h hh.symm), if_neg h]
  | cons p rest ih =>
    by_cases hpk : p.1 = k
    · have hlhs : registryLookup (dictInsert (p :: rest) k v) name
          = if k = name then some v else registryLookup rest name := by
        simp only [dictInsert, if_pos hpk]
        exact registryLookup_cons (k, v) rest name
      rw [hlhs]
      by_cases hnk : name = k
      · rw [if_pos hnk.symm, if_pos hnk]
      · rw [if_neg (fun hh : k = name => hnk hh.symm), if_neg hnk, registryLookup_cons,
          if_neg (fun hh : p.1 = name => hnk (hh.symm.trans hpk))]
    · simp only [dictInsert, if_neg hpk]
      rw [registryLookup_cons, registryLookup_cons, ih]
      by_cases hpn : p.1 = name <;> by_cases hnk : name = k
      · exact absurd (hpn.trans hnk) hpk
      · rw [if_pos hpn, if_neg hnk, if_pos hpn]
      · rw [if_neg hpn, if_pos hnk, if_pos hnk]
      · rw [if_neg hpn, if_neg hnk, if_neg hnk, if_neg hpn]

lemma dictInsert_keys_mem (reg : Registry) (k : String) (v : Nat) (n : String) :
    n ∈ (dictInsert reg k v).map Prod.fst ↔ n ∈ reg.map Prod.fst ∨ n = k := by
  induction reg with
  | nil => simp [dictInsert]
  | cons p rest ih =>
    by_cases hpk : p.1 = k
    · simp only [dictInsert, if_pos hpk, List.map_cons, List.mem_cons]
      constructor
      · rintro (h | h)
        · exact Or.inr h
        · exact Or.inl (Or.inr h)
      · rintro ((h | h) | h)
        · exact Or.inl (h.trans hpk)
        · exact Or.inr h
        · exact Or.inl h
    · simp only [dictInsert, if_neg hpk, List.map_cons, List.mem_cons, ih]
      tauto

lemma dictInsert_keys_nodup (reg : Registry) (k : String) (v : Nat)
    (h : (reg.map Prod.fst).Nodup) : ((dictInsert reg k v).map Prod.fst).Nodup := by
  induction reg with
  | nil => simp [dictInsert]
  | cons p rest ih =>
    simp only [List.map_cons, List.nodup_cons] at h
    by_cases hpk : p.1 = k
    · simp only [dictInsert, if_pos hpk, List.map_cons, List.nodup_cons]
      exact ⟨hpk ▸ h.1, h.2⟩
    · simp only [dictInsert, if_neg hpk, List.map_cons, List.nodup_cons]
      refine ⟨?_, ih h.2⟩
      rw [dictInsert_keys_mem]
      rintro (hm | hm)
      · exact h.1 hm
      · exact hpk hm

lemma regFold_lookup (regs : List (String × Nat)) (init : Registry) (name : String) :
    registryLookup (regFold regs init) name =
      (regs.reverse.find? (fun p => p.1 == name)).elim
        (registryLookup init name) (fun p => some p.2) := by
  induction regs generalizing init with
  | nil => simp [regFold]
  | cons p rest ih =>
    have step : regFold (p :: rest) init = regFold rest (dictInsert init p.1 p.2) := rfl
    rw [step, ih, List.reverse_cons, List.find?_append]
    cases hfind : rest.reverse.find? (fun q => q.1 == name) with
    | some q => simp [Option.or, hfind]
    | none =>
      rw [Option.none_or, dictInsert_lookup]
      by_cases h : p.1 = name
      · have hone : ([p].find? fun q => q.1 == name) = some p := by
          simp [List.find?, h]
        rw [hone, if_pos h.symm]
        rfl
      · have hb : (p.1 == name) = false := beq_eq_false_iff_ne.mpr h
        have hone : ([p].find? fun q => q.1 == name) = none := by
          simp [List.find?, hb]
        rw [hone, if_neg (fun hh : name = p.1 => h hh.symm)]

lemma regFold_keys_nodup (regs : List (String × Nat)) (init : Registry)
    (h : (init.map Prod.fst).Nodup) : ((regFold regs init).map Prod.fst).Nodup := by
  induction regs generalizing init with
  | nil => exact h
  | cons p rest ih => exact ih (dictInsert init p.1 p.2) (dictInsert_keys_nodup init p.1 p.2 h)

lemma registerTools_snd (i : Nat) (ts : List Tool) (acc : List Tool × Registry) :
    (registerTools i ts acc).2 = regFold (regsOf i ts) acc.2 := by
  induction ts generalizing acc with
  | nil => rfl
  | cons t rest ih =>
    cases ht : t.name with
    | none =>
      have h1 : registerTools i (t :: rest) acc = registerTools i rest acc := by
        simp [registerTools, ht]
      have h2 : regsOf i (t :: rest) = regsOf i rest := by simp [regsOf, ht]
      rw [h1, h2, ih]
    | some nm =>
      by_cases hnm : nm = ""
      · have h1 : registerTools i (t :: rest) acc = registerTools i rest acc := by
          simp [registerTools, ht, hnm]
        have h2 : regsOf i (t :: rest) = regsOf i rest := by simp [regsOf, ht, hnm]
        rw [h1, h2, ih]
      · have h1 : registerTools i (t :: rest) acc
            = registerTools i rest (acc.1 ++ [t], dictInsert acc.2 nm i) := by
          simp [registerTools, ht, hnm]
        have h2 : regsOf i (t :: rest) = (nm, i) :: regsOf i rest := by
          simp [regsOf, ht, hnm]
        rw [h1, h2, ih]
        rfl

lemma buildRegistryAux_snd (servers : List (List Tool)) (i : Nat)
    (acc : List Tool × Registry) :
    (buildRegistryAux i servers acc).2 = regFold (registrationsAux i servers) acc.2 := by
  induction servers generalizing i acc with
  | nil => rfl
  | cons ts rest ih =>
    simp only [buildRegistryAux, registrationsAux]
    rw [ih, registerTools_snd]
    simp [regFold, List.foldl_append]

/-- C4 (amended): the built registry has pairwise-distinct names, and
each name routes to the last backend that registered it. -/
theorem registry_lastWins_unique (servers : List (List Tool)) (name : String) :
    (((buildRegistry servers).2.map Prod.fst).Nodup) ∧
    registryLookup (buildRegistry servers).2 name =
      ((registrations servers).reverse.find? (fun p => p.1 == name)).map Prod.snd := by
  have hsnd : (buildRegistry servers).2 = regFold (registrations servers) [] :=
    buildRegistryAux_snd servers 0 ([], [])
  constructor
  · rw [hsnd]
    exact regFold_keys_nodup (registrations servers) [] (by simp)
  · rw [hsnd, regFold_lookup]
    cases (registrations servers).reverse.find? (fun p => p.1 == name) with
    | none => rfl
    | some p => rfl

/-- C4 counterexample: with two backends both exposing tool `"t"`, the
registry maps `"t"` to the second (last-registered) backend, not the
first, and no construction failure occurs. -/
theorem duplicateName_counterexample :
    registryLookup (buildRegistry [[⟨some "t"⟩], [⟨some "t"⟩]]).2 "t" = some 1 ∧
      (some 1 : Option Nat) ≠ some 0 := by
  exact ⟨rfl, by decide⟩

/-! ### Dispatch lemmas -/

lemma callBackend_fst_keys {o : Oracle} {server : Nat} {toolName : String} {arguments : Args}
    {callId : String} {out : Option ToolResponse} {evs : List Event}
    (h : callBackend o server toolName arguments callId = (.ok out, evs)) :
    out.map (fun r => (r.tool_call_id, r.name)) = some (callId, toolName) := by
  unfold callBackend at h
  simp only [Prod.mk.injEq] at h
  obtain ⟨h1, h2⟩ := h
  cases hs : o.sendCallTool server toolName arguments with
  | error e =>
    simp only [hs] at h1
    cases h1
  | ok result =>
    simp only [hs] at h1
    by_cases hr : result.isError = true
    · rw [if_pos hr] at h1
      cases h1
      rfl
    · rw [if_neg hr] at h1
      cases h1
      rfl

lemma callBackend_snd {o : Oracle} {server : Nat} {toolName : String} {arguments : Args}
    {callId : String} :
    (callBackend o server toolName arguments callId).2
      = [Event.backendCall server toolName arguments] := rfl

lemma dispatchCall_fst_keys {o : Oracle} {reg : Registry} {tc : ToolCall}
    {out : Option ToolResponse} {evs : List Event}
    (h : dispatchCall o reg tc = (.ok out, evs)) :
    out.map (fun r => (r.tool_call_id, r.name))
      = (dispatchedName reg tc).map (fun n => (tc.id, n)) := by
  unfold dispatchCall at h
  cases hf : tc.function with
  | none =>
    simp only [hf, Prod.mk.injEq, Except.ok.injEq] at h
    rw [← h.1]
    simp [dispatchedName, innerName, hf]
  | some fn =>
    cases hn : fn.name with
    | none =>
      simp only [hf, hn, Prod.mk.injEq, Except.ok.injEq] at h
      rw [← h.1]
      simp [dispatchedName, innerName, hf, hn]
    | some nv =>
      cases nv with
      | none =>
        simp only [hf, hn, Prod.mk.injEq, Except.ok.injEq] at h
        rw [← h.1]
        simp [dispatchedName, innerName, hf, hn]
      | some toolName =>
        simp only [hf, hn] at h
        by_cases hne : toolName = ""
        · rw [if_pos hne] at h
          simp only [Prod.mk.injEq, Except.ok.injEq] at h
          rw [← h.1]
          simp [dispatchedName, innerName, hf, hn, hne]
        · rw [if_neg hne] at h
          cases hl : registryLookup reg toolName with
          | none =>
            simp only [hl, Prod.mk.injEq, Except.ok.injEq] at h
            rw [← h.1]
            simp [dispatchedName, innerName, hf, hn, hne, hl]
          | some server =>
            simp only [hl] at h
            have hd : dispatchedName reg tc = some toolName := by
              simp [dispatchedName, innerName, hf, hn, hne, hl]
            rw [hd]
            cases ha : fn.arguments with
            | none =>
              simp only [ha] at h
              exact callBackend_fst_keys h
            | some argVal =>
              simp only [ha] at h
              exact callBackend_fst_keys h

lemma dispatchCall_backend_names {o : Oracle} {reg : Registry} {tc : ToolCall}
    {res : Except String (Option ToolResponse)} {evs : List Event}
    (h : dispatchCall o reg tc = (res, evs)) (s : Nat) (n : String) (a : Args)
    (hm : Event.backendCall s n a ∈ evs) : dispatchedName reg tc = some n := by
  unfold dispatchCall at h
  cases hf : tc.function with
  | none =>
    simp only [hf, Prod.mk.injEq] at h
    rw [← h.2] at hm
    cases hm
  | some fn =>
    cases hn : fn.name with
    | none =>
      simp only [hf, hn, Prod.mk.injEq] at h
      rw [← h.2] at hm
      cases hm
    | some nv =>
      cases nv with
      | none =>
        simp only [hf, hn, Prod.mk.injEq] at h
        rw [← h.2] at hm
        cases hm
      | some toolName =>
        simp only [hf, hn] at h
        by_cases hne : toolName = ""
        · rw [if_pos hne] at h
          simp only [Prod.mk.injEq] at h
          rw [← h.2] at hm
          cases hm
        · rw [if_neg hne] at h
          cases hl : registryLookup reg toolName with
          | none =>
            simp only [hl, Prod.mk.injEq] at h
            rw [← h.2] at hm
            cases hm
          | some server =>
            simp only [hl] at h
            have hd : dispatchedName reg tc = some toolName := by
              simp [dispatchedName, innerName, hf, hn, hne, hl]
            cases ha : fn.arguments with
            | none =>
              simp only [ha] at h
              have hev : evs = [Event.backendCall server toolName Args.empty] :=
                (congrArg Prod.snd h).symm
              rw [hev, List.mem_singleton] at hm
              simp only [Event.backendCall.injEq] at hm
              rw [hm.2.1]
              exact hd
            | some argVal =>
              simp only [ha] at h
              have hev : evs = [Event.backendCall server toolName (parsedArguments o argVal)] :=
                (congrArg Prod.snd h).symm
              rw [hev, List.mem_singleton] at hm
              simp only [Event.backendCall.injEq] at hm
              rw [hm.2.1]
              exact hd

lemma dispatchAll_ok_keys {o : Oracle} {reg : Registry} :
    ∀ {tcs : List ToolCall} {rs : List ToolResponse} {evs : List Event},
    dispatchAll o reg tcs = (.ok rs, evs) →
    rs.map (fun r => (r.tool_call_id, r.name))
      = tcs.filterMap (fun tc => (dispatchedName reg tc).map (fun n => (tc.id, n))) := by
  intro tcs
  induction tcs with
  | nil =>
    intro rs evs h
    simp only [dispatchAll, Prod.mk.injEq, Except.ok.injEq] at h
    rw [← h.1]
    rfl
  | cons tc rest ih =>
    intro rs evs h
    simp only [dispatchAll] at h
    rcases hc : dispatchCall o reg tc with ⟨cres, cevs⟩
    rw [hc] at h
    cases cres with
    | error e => cases h
    | ok r =>
      rcases hrest : dispatchAll o reg rest with ⟨rres, revs⟩
      rw [hrest] at h
      cases rres with
      | error e => cases h
      | ok rs2 =>
        simp only [Prod.mk.injEq, Except.ok.injEq] at h
        rw [← h.1, List.map_append, ih hrest, List.filterMap_cons]
        have hkeys := dispatchCall_fst_keys hc
        cases hd : dispatchedName reg tc with
        | none =>
          rw [hd] at hkeys
          simp only [Option.map_none'] at hkeys
          cases r with
          | none => rfl
          | some x => cases hkeys
        | some n =>
          rw [hd] at hkeys
          cases r with
          | none => cases hkeys
          | some x =>
            simp only [Option.map_some', Option.some.injEq] at hkeys
            simp [Option.toList, hkeys]

lemma dispatchAll_backend_names {o : Oracle} {reg : Registry} :
    ∀ {tcs : List ToolCall} {res : Except String (List ToolResponse)} {evs : List Event},
    dispatchAll o reg tcs = (res, evs) → ∀ s n a, Event.backendCall s n a ∈ evs →
      ∃ tc ∈ tcs, dispatchedName reg tc = some n := by
  intro tcs
  induction tcs with
  | nil =>
    intro res evs h s n a hm
    simp only [dispatchAll, Prod.mk.injEq] at h
    rw [← h.2] at hm
    cases hm
  | cons tc rest ih =>
    intro res evs h s n a hm
    simp only [dispatchAll] at h
    rcases hc : dispatchCall o reg tc with ⟨cres, cevs⟩
    rw [hc] at h
    cases cres with
    | error e =>
      simp only [Prod.mk.injEq] at h
      rw [← h.2] at hm
      exact ⟨tc, List.mem_cons_self tc rest, dispatchCall_backend_names hc s n a hm⟩
    | ok r =>
      rcases hrest : dispatchAll o reg rest with ⟨rres, revs⟩
      rw [hrest] at h
      cases rres with
      | error e =>
        simp only [Prod.mk.injEq] at h
        rw [← h.2] at hm
        rcases List.mem_append.mp hm with hm1 | hm2
        · exact ⟨tc, List.mem_cons_self tc rest, dispatchCall_backend_names hc s n a hm1⟩
        · obtain ⟨tc2, htc2, hd2⟩ := ih hrest s n a hm2
          exact ⟨tc2, List.mem_cons_of_mem tc htc2, hd2⟩
      | ok rs2 =>
        simp only [Prod.mk.injEq] at h
        rw [← h.2] at hm
        rcases List.mem_append.mp hm with hm1 | hm2
        · exact ⟨tc, List.mem_cons_self tc rest, dispatchCall_backend_names hc s n a hm1⟩
        · obtain ⟨tc2, htc2, hd2⟩ := ih hrest s n a hm2
          exact ⟨tc2, List.mem_cons_of_mem tc htc2, hd2⟩

lemma dispatchedName_lookup_isSome {reg : Registry} {tc : ToolCall} {n : String}
    (h : dispatchedName reg tc = some n) : (registryLookup reg n).isSome := by
  unfold dispatchedName at h
  cases hi : innerName tc with
  | none =>
    simp only [hi] at h
    cases h
  | some m =>
    simp only [hi] at h
    by_cases hm : m = ""
    · simp only [if_pos hm] at h
      cases h
    · simp only [if_neg hm] at h
      by_cases hs : (registryLookup reg m).isSome = true
      · simp only [if_pos hs, Option.some.injEq] at h
        rw [← h]
        exact hs
      · simp only [if_neg hs] at h
        cases h

/-- Exactly one of: dispatched, malformed, or not-found. -/
lemma dispatch_trichotomy (reg : Registry) (tc : ToolCall) :
    ((dispatchedName reg tc).isSome ∧ isMalformed tc = false ∧ isNotFound reg tc = false)
    ∨ (dispatchedName reg tc = none ∧ isMalformed tc = true ∧ isNotFound reg tc = false)
    ∨ (dispatchedName reg tc = none ∧ isMalformed tc = false ∧ isNotFound reg tc = true) := by
  cases hi : innerName tc with
  | none =>
    refine Or.inr (Or.inl ?_)
    simp [dispatchedName, isMalformed, isNotFound, hi]
  | some m =>
    by_cases hm : m = ""
    · refine Or.inr (Or.inl ?_)
      simp [dispatchedName, isMalformed, isNotFound, hi, hm]
    · cases hs : registryLookup reg m with
      | some v =>
        refine Or.inl ?_
        simp [dispatchedName, isMalformed, isNotFound, hi, hm, hs]
      | none =>
        refine Or.inr (Or.inr ?_)
        simp [dispatchedName, isMalformed, isNotFound, hi, hm, hs]

lemma dispatch_count (reg : Registry) : ∀ tcs : List ToolCall,
    (tcs.filterMap (fun tc => (dispatchedName reg tc).map (fun n => (tc.id, n)))).length
      + tcs.countP isMalformed + tcs.countP (fun tc => isNotFound reg tc)
      = tcs.length := by
  intro tcs
  induction tcs with
  | nil => rfl
  | cons tc rest ih =>
    rw [List.filterMap_cons, List.countP_cons, List.countP_cons, List.length_cons]
    rcases dispatch_trichotomy reg tc with ⟨h1, h2, h3⟩ | ⟨h1, h2, h3⟩ | ⟨h1, h2, h3⟩
    · obtain ⟨n, hn⟩ := Option.isSome_iff_exists.mp h1
      simp [hn, h2, h3]
      omega
    · simp [h1, h2, h3]
      omega
    · simp [h1, h2, h3]
      omega

/-! ### Round and session lemmas -/

lemma round_tool_branch {o : Oracle} {p m : String} {reg : Registry} {hist : List Turn}
    {msg : String} {c : Completion} {stored : List StoredCall} {rs : List ToolResponse}
    {devs : List Event} {c2 : Completion}
    (hx1 : pyLower msg ≠ "exit") (hx2 : pyLower msg ≠ "quit")
    (hc : o.createCompletion p m (hist ++ [Turn.user msg]) = .ok c)
    (hne : c.tool_calls.isEmpty = false)
    (hst : extractStoredCalls c.tool_calls = .ok stored)
    (hd : dispatchAll o reg c.tool_calls = (.ok rs, devs))
    (h2 : o.createCompletion p m
        (hist ++ [Turn.user msg] ++ [Turn.assistant (assistantText c) stored] ++ rs.map toTurn)
        = .ok c2) :
    processRound o p m reg hist msg =
      ⟨.completed,
       hist ++ [Turn.user msg] ++ [Turn.assistant (assistantText c) stored] ++ rs.map toTurn
         ++ [Turn.assistant (followupText c2.response) []],
       Event.llmCall (hist ++ [Turn.user msg]) :: devs
         ++ [Event.llmCall (hist ++ [Turn.user msg] ++ [Turn.assistant (assistantText c) stored]
              ++ rs.map toTurn)]⟩ := by
  unfold processRound
  rw [if_neg (by rintro (h | h); exacts [hx1 h, hx2 h])]
  unfold roundBody
  have h2a : o.createCompletion p m
      (hist ++ Turn.user msg :: Turn.assistant (assistantText c) stored :: rs.map toTurn)
      = .ok c2 := by
    simpa [List.append_assoc] using h2
  simp [hc, hne, hst, hd, h2a]

lemma roundBody_status_ne_exited (o : Oracle) (p m : String) (reg : Registry)
    (hist : List Turn) : (roundBody o p m reg hist).status ≠ .exited := by
  unfold roundBody
  repeat' split
  all_goals simp

lemma roundBody_take (o : Oracle) (p m : String) (reg : Registry) (hist : List Turn) :
    ((roundBody o p m reg hist).hist).take hist.length = hist := by
  unfold roundBody
  repeat' split
  all_goals simp [List.append_assoc, List.take_left]

lemma take_eq_exists {l res : List Turn} (h : res.take l.length = l) :
    ∃ t, res = l ++ t :=
  ⟨res.drop l.length, by conv_lhs => rw [← List.take_append_drop l.length res, h]⟩

lemma processRound_hist_extends (o : Oracle) (p m : String) (reg : Registry)
    (hist : List Turn) (msg : String) :
    ∃ t, (processRound o p m reg hist msg).hist = hist ++ t := by
  unfold processRound
  split
  · exact ⟨[], by simp⟩
  · obtain ⟨t, ht⟩ := take_eq_exists (roundBody_take o p m reg (hist ++ [Turn.user msg]))
    exact ⟨[Turn.user msg] ++ t, by rw [ht, List.append_assoc]⟩

lemma sessionLoop_hist_extends (o : Oracle) (p m : String) (reg : Registry) :
    ∀ (inputs : List String) (hist : List Turn),
    ∃ t, (sessionLoop o p m reg inputs hist).hist = hist ++ t := by
  intro inputs
  induction inputs with
  | nil => intro hist; exact ⟨[], by simp [sessionLoop]⟩
  | cons raw rest ih =>
    intro hist
    rcases hr : processRound o p m reg hist (readUserMessage raw) with ⟨st, h1, evs⟩
    have hx : ∃ t, h1 = hist ++ t := by
      have h := processRound_hist_extends o p m reg hist (readUserMessage raw)
      rwa [hr] at h
    obtain ⟨t1, ht1⟩ := hx
    cases st with
    | exited =>
      refine ⟨t1, ?_⟩
      simp only [sessionLoop, hr]
      exact ht1
    | completed =>
      obtain ⟨t2, ht2⟩ := ih h1
      refine ⟨t1 ++ t2, ?_⟩
      simp only [sessionLoop, hr]
      rw [ht2, ht1, List.append_assoc]
    | caught e =>
      obtain ⟨t2, ht2⟩ := ih h1
      refine ⟨t1 ++ t2, ?_⟩
      simp only [sessionLoop, hr]
      rw [ht2, ht1, List.append_assoc]

lemma processRound_exited_cond {o : Oracle} {p m : String} {reg : Registry}
    {hist : List Turn} {msg : String}
    (h : (processRound o p m reg hist msg).status = .exited) :
    pyLower msg = "exit" ∨ pyLower msg = "quit" := by
  by_cases hc : pyLower msg = "exit" ∨ pyLower msg = "quit"
  · exact hc
  · exfalso
    unfold processRound at h
    rw [if_neg hc] at h
    exact roundBody_status_ne_exited o p m reg (hist ++ [Turn.user msg]) h

lemma sessionLoop_exited_cond (o : Oracle) (p m : String) (reg : Registry) :
    ∀ (inputs : List String) (hist : List Turn),
    (sessionLoop o p m reg inputs hist).exited = true →
    ∃ raw ∈ inputs,
      pyLower (readUserMessage raw) = "exit" ∨ pyLower (readUserMessage raw) = "quit" := by
  intro inputs
  induction inputs with
  | nil =>
    intro hist h
    simp [sessionLoop] at h
  | cons raw rest ih =>
    intro hist h
    rcases hr : processRound o p m reg hist (readUserMessage raw) with ⟨st, h1, evs⟩
    cases st with
    | exited =>
      have hs : (processRound o p m reg hist (readUserMessage raw)).status = .exited := by
        rw [hr]
      exact ⟨raw, List.mem_cons_self raw rest, processRound_exited_cond hs⟩
    | completed =>
      simp only [sessionLoop, hr] at h
      obtain ⟨raw2, hmem, hcond⟩ := ih h1 h
      exact ⟨raw2, List.mem_cons_of_mem raw hmem, hcond⟩
    | caught e =>
      simp only [sessionLoop, hr] at h
      obtain ⟨raw2, hmem, hcond⟩ := ih h1 h
      exact ⟨raw2, List.mem_cons_of_mem raw hmem, hcond⟩

lemma buildRegistryAux_all_nil : ∀ (servers : List (List Tool)) (i : Nat)
    (acc : List Tool × Registry), (∀ ts ∈ servers, ts = []) →
    buildRegistryAux i servers acc = acc := by
  intro servers
  induction servers with
  | nil => intro i acc _; rfl
  | cons ts rest ih =>
    intro i acc h
    have hts : ts = [] := h ts (List.mem_cons_self ts rest)
    subst hts
    exact ih (i + 1) acc (fun ts2 hm => h ts2 (List.mem_cons_of_mem [] hm))

/-! ### Claim theorems -/

lemma dispatchAll_resp_names {o : Oracle} {reg : Registry} {tcs : List ToolCall}
    {rs : List ToolResponse} {evs : List Event}
    (hd : dispatchAll o reg tcs = (.ok rs, evs)) {r : ToolResponse} (hr : r ∈ rs) :
    (registryLookup reg r.name).isSome := by
  have hmem : (r.tool_call_id, r.name) ∈ rs.map (fun r => (r.tool_call_id, r.name)) :=
    List.mem_map_of_mem _ hr
  rw [dispatchAll_ok_keys hd] at hmem
  obtain ⟨tc, htc, hsome⟩ := List.mem_filterMap.mp hmem
  cases hdn : dispatchedName reg tc with
  | none => rw [hdn] at hsome; cases hsome
  | some nm =>
    rw [hdn] at hsome
    simp only [Option.map_some', Option.some.injEq, Prod.mk.injEq] at hsome
    rw [← hsome.2]
    exact dispatchedName_lookup_isSome hdn

/-- C2 (amended): in a round whose first completion requests tool calls, all
of them carrying the `function`/`name`/`arguments` attributes, and whose
dispatches and followup completion raise no exception, the round completes and
the ToolResult turns appended to the history are exactly one per successfully
routed call, keyed and ordered as the originating requests; their number is N
minus the count of malformed (nameless) calls minus the count of calls whose
name is absent from the registry. -/
theorem toolResult_turns_shape {o : Oracle} {p m : String} {reg : Registry} {hist : List Turn}
    {msg : String} {c : Completion} {stored : List StoredCall} {rs : List ToolResponse}
    {devs : List Event} {c2 : Completion}
    (hx1 : pyLower msg ≠ "exit") (hx2 : pyLower msg ≠ "quit")
    (hc : o.createCompletion p m (hist ++ [Turn.user msg]) = .ok c)
    (hne : c.tool_calls.isEmpty = false)
    (hst : extractStoredCalls c.tool_calls = .ok stored)
    (hd : dispatchAll o reg c.tool_calls = (.ok rs, devs))
    (h2 : o.createCompletion p m
        (hist ++ [Turn.user msg] ++ [Turn.assistant (assistantText c) stored] ++ rs.map toTurn)
        = .ok c2) :
    processRound o p m reg hist msg =
      ⟨.completed,
       hist ++ [Turn.user msg] ++ [Turn.assistant (assistantText c) stored] ++ rs.map toTurn
         ++ [Turn.assistant (followupText c2.response) []],
       Event.llmCall (hist ++ [Turn.user msg]) :: devs
         ++ [Event.llmCall (hist ++ [Turn.user msg] ++ [Turn.assistant (assistantText c) stored]
              ++ rs.map toTurn)]⟩ ∧
    rs.map (fun r => (r.tool_call_id, r.name))
      = c.tool_calls.filterMap (fun tc => (dispatchedName reg tc).map (fun n => (tc.id, n))) ∧
    rs.length = c.tool_calls.length - c.tool_calls.countP isMalformed
      - c.tool_calls.countP (fun tc => isNotFound reg tc) := by
  refine ⟨round_tool_branch hx1 hx2 hc hne hst hd h2, dispatchAll_ok_keys hd, ?_⟩
  have hlen : rs.length
      = (c.tool_calls.filterMap
          (fun tc => (dispatchedName reg tc).map (fun n => (tc.id, n)))).length := by
    rw [← dispatchAll_ok_keys hd, List.length_map]
  have hcount := dispatch_count reg c.tool_calls
  omega

/-- C1 (amended): a tool call whose requested name is absent from the registry
is skipped: no backend call for that name is attempted anywhere in the round,
no ToolResult turn bearing that name is appended (the code only prints a
warning), and the followup completion still proceeds — the round completes
normally. -/
theorem unknownTool_skipped {o : Oracle} {p m : String} {reg : Registry} {hist : List Turn}
    {msg : String} {c : Completion} {stored : List StoredCall} {rs : List ToolResponse}
    {devs : List Event} {c2 : Completion} {n : String}
    (hx1 : pyLower msg ≠ "exit") (hx2 : pyLower msg ≠ "quit")
    (hc : o.createCompletion p m (hist ++ [Turn.user msg]) = .ok c)
    (hne : c.tool_calls.isEmpty = false)
    (hst : extractStoredCalls c.tool_calls = .ok stored)
    (hd : dispatchAll o reg c.tool_calls = (.ok rs, devs))
    (h2 : o.createCompletion p m
        (hist ++ [Turn.user msg] ++ [Turn.assistant (assistantText c) stored] ++ rs.map toTurn)
        = .ok c2)
    (habs : registryLookup reg n = none) :
    processRound o p m reg hist msg =
      ⟨.completed,
       hist ++ [Turn.user msg] ++ [Turn.assistant (assistantText c) stored] ++ rs.map toTurn
         ++ [Turn.assistant (followupText c2.response) []],
       Event.llmCall (hist ++ [Turn.user msg]) :: devs
         ++ [Event.llmCall (hist ++ [Turn.user msg] ++ [Turn.assistant (assistantText c) stored]
              ++ rs.map toTurn)]⟩ ∧
    rs.countP (fun r => r.name == n) = 0 ∧
    (Event.llmCall (hist ++ [Turn.user msg]) :: devs
       ++ [Event.llmCall (hist ++ [Turn.user msg] ++ [Turn.assistant (assistantText c) stored]
            ++ rs.map toTurn)]).countP (callsTool n) = 0 := by
  refine ⟨round_tool_branch hx1 hx2 hc hne hst hd h2, ?_, ?_⟩
  · rw [List.countP_eq_zero]
    intro r hr
    simp only [beq_iff_eq]
    intro hrn
    have hl := dispatchAll_resp_names hd hr
    rw [hrn, habs] at hl
    cases hl
  · rw [List.countP_eq_zero]
    intro e he
    rcases List.mem_cons.mp he with he1 | he2
    · rw [he1]
      simp [callsTool]
    · rcases List.mem_append.mp he2 with hed | hel
      · cases e with
        | llmCall h => simp [callsTool]
        | backendCall s nm a =>
          simp only [callsTool, beq_iff_eq]
          intro hnm
          obtain ⟨tc, htc, hdn⟩ := dispatchAll_backend_names hd s nm a hed
          have hl := dispatchedName_lookup_isSome hdn
          rw [hnm, habs] at hl
          cases hl
      · rw [List.mem_singleton.mp hel]
        simp [callsTool]

/-- C3 (amended): when a call's raw argument string fails to parse, the parse
error is handled locally: the empty argument map is substituted and the
backend IS invoked with it, so the call's dispatch result is the backend's
result, not a parse-error result. -/
theorem parseFailure_invokes_backend {o : Oracle} {reg : Registry} {tc : ToolCall}
    {fn : ToolFunction} {toolName : String} {server : Nat} {argStr : String} {e : String}
    {r : CallResult} {ct : String}
    (hf : tc.function = some fn)
    (hn : fn.name = some (some toolName))
    (hne : toolName ≠ "")
    (hl : registryLookup reg toolName = some server)
    (ha : fn.arguments = some (some argStr))
    (hastr : argStr ≠ "")
    (hp : o.parseJson argStr = .error e)
    (hs : o.sendCallTool server toolName Args.empty = .ok r)
    (hr : r.isError = false)
    (hct : r.content = some (some ct)) :
    parsedArguments o (some argStr) = Args.empty ∧
    dispatchCall o reg tc
      = (.ok (some ⟨tc.id, toolName, some ct⟩),
         [Event.backendCall server toolName Args.empty]) := by
  have hpa : parsedArguments o (some argStr) = Args.empty := by
    unfold parsedArguments
    simp [if_neg hastr, hp]
  refine ⟨hpa, ?_⟩
  unfold dispatchCall
  simp only [hf, hn, if_neg hne, hl, ha, hpa]
  unfold callBackend
  simp [hs, hr, hct]

/-- C5 (amended): a backend result with the error flag set yields an error
result whose message is exactly the backend's `error` field when the field is
present — even when it is the empty string — and the placeholder
"Unknown error" only when the field is absent; the resulting ToolResult
turn's content is "Error: " followed by that message. -/
theorem backendError_message {o : Oracle} {reg : Registry} {tc : ToolCall}
    {fn : ToolFunction} {toolName : String} {server : Nat} {argStr : String} {args : Args}
    {r : CallResult}
    (hf : tc.function = some fn)
    (hn : fn.name = some (some toolName))
    (hne : toolName ≠ "")
    (hl : registryLookup reg toolName = some server)
    (ha : fn.arguments = some (some argStr))
    (hastr : argStr ≠ "")
    (hp : o.parseJson argStr = .ok args)
    (hs : o.sendCallTool server toolName args = .ok r)
    (hr : r.isError = true) :
    dispatchCall o reg tc
      = (.ok (some ⟨tc.id, toolName, some ("Error: " ++ r.error.getD "Unknown error")⟩),
         [Event.backendCall server toolName args]) ∧
    toTurn ⟨tc.id, toolName, some ("Error: " ++ r.error.getD "Unknown error")⟩
      = Turn.tool tc.id toolName ("Error: " ++ r.error.getD "Unknown error") := by
  constructor
  · have hpa : parsedArguments o (some argStr) = args := by
      unfold parsedArguments
      simp [if_neg hastr, hp]
    unfold dispatchCall
    simp only [hf, hn, if_neg hne, hl, ha, hpa]
    unfold callBackend
    simp [hs, hr]
  · rfl

/-- C6: after a round's tool dispatch, the followup completion's text is final
for the round: the theorem holds with no restriction on `c2.tool_calls`, the
round's last external call is the followup completion itself (no further
dispatch events follow it), and an empty or absent followup text is replaced
by the default "processed ... nothing specific to add" message. -/
theorem followup_is_final {o : Oracle} {p m : String} {reg : Registry} {hist : List Turn}
    {msg : String} {c : Completion} {stored : List StoredCall} {rs : List ToolResponse}
    {devs : List Event} {c2 : Completion}
    (hx1 : pyLower msg ≠ "exit") (hx2 : pyLower msg ≠ "quit")
    (hc : o.createCompletion p m (hist ++ [Turn.user msg]) = .ok c)
    (hne : c.tool_calls.isEmpty = false)
    (hst : extractStoredCalls c.tool_calls = .ok stored)
    (hd : dispatchAll o reg c.tool_calls = (.ok rs, devs))
    (h2 : o.createCompletion p m
        (hist ++ [Turn.user msg] ++ [Turn.assistant (assistantText c) stored] ++ rs.map toTurn)
        = .ok c2) :
    processRound o p m reg hist msg =
      ⟨.completed,
       hist ++ [Turn.user msg] ++ [Turn.assistant (assistantText c) stored] ++ rs.map toTurn
         ++ [Turn.assistant (followupText c2.response) []],
       Event.llmCall (hist ++ [Turn.user msg]) :: devs
         ++ [Event.llmCall (hist ++ [Turn.user msg] ++ [Turn.assistant (assistantText c) stored]
              ++ rs.map toTurn)]⟩ ∧
    followupText none = "I processed the tool responses but have nothing specific to add." ∧
    followupText (some "")
      = "I processed the tool responses but have nothing specific to add." :=
  ⟨round_tool_branch hx1 hx2 hc hne hst hd h2, rfl, rfl⟩

/-- C7: the session ends only on explicit user exit: an exit keyword
("exit"/"quit", case-insensitively) ends the round at once with no completion
call and no history change; a session loop that reports `exited` consumed an
input whose stripped text matches an exit keyword; and a round that caught an
exception merely continues the loop with the next input. -/
theorem session_exit_only :
    (∀ (o : Oracle) (p m : String) (reg : Registry) (hist : List Turn) (msg : String),
      (pyLower msg = "exit" ∨ pyLower msg = "quit") →
      processRound o p m reg hist msg = ⟨.exited, hist, []⟩) ∧
    (∀ (o : Oracle) (p m : String) (reg : Registry) (inputs : List String) (hist : List Turn),
      (sessionLoop o p m reg inputs hist).exited = true →
      ∃ raw ∈ inputs,
        pyLower (readUserMessage raw) = "exit" ∨ pyLower (readUserMessage raw) = "quit") ∧
    (∀ (o : Oracle) (p m : String) (reg : Registry) (raw : String) (rest : List String)
        (hist : List Turn) (e : String),
      (processRound o p m reg hist (readUserMessage raw)).status = .caught e →
      sessionLoop o p m reg (raw :: rest) hist =
        ⟨(sessionLoop o p m reg rest
            (processRound o p m reg hist (readUserMessage raw)).hist).hist,
         (processRound o p m reg hist (readUserMessage raw)).events
           ++ (sessionLoop o p m reg rest
                (processRound o p m reg hist (readUserMessage raw)).hist).events,
         (sessionLoop o p m reg rest
            (processRound o p m reg hist (readUserMessage raw)).hist).exited⟩) := by
  refine ⟨?_, fun o p m reg => sessionLoop_exited_cond o p m reg, ?_⟩
  · intro o p m reg hist msg h
    unfold processRound
    rw [if_pos h]
  · intro o p m reg raw rest hist e hst
    rcases hr : processRound o p m reg hist (readUserMessage raw) with ⟨st, h1, evs⟩
    rw [hr] at hst
    cases st with
    | exited => cases hst
    | completed => cases hst
    | caught e2 =>
      cases hst
      simp only [sessionLoop, hr]

/-- C8: the Conversation State is append-only: each round, and the whole
session loop, return a history that extends the one they were given, so turns
already appended are never mutated, removed, or reordered. -/
theorem history_append_only :
    (∀ (o : Oracle) (p m : String) (reg : Registry) (hist : List Turn) (msg : String),
      ∃ t, (processRound o p m reg hist msg).hist = hist ++ t) ∧
    (∀ (o : Oracle) (p m : String) (reg : Registry) (inputs : List String) (hist : List Turn),
      ∃ t, (sessionLoop o p m reg inputs hist).hist = hist ++ t) :=
  ⟨processRound_hist_extends, fun o p m reg => sessionLoop_hist_extends o p m reg⟩

/-- C9: when zero tools are discovered across all connected backends, the
session terminates before entering the conversation loop: `handle_chat_mode`
returns the no-tools result and no completion (or any other external) call is
made. -/
theorem noTools_terminates (o : Oracle) (env : Env) (servers : List (List Tool))
    (provider model : String) (rawInputs : List String)
    (h : ∀ ts ∈ servers, ts = []) :
    handle_chat_mode o env servers provider model rawInputs = .noTools ∧
    (handle_chat_mode o env servers provider model rawInputs).events = [] := by
  have hb : buildRegistry servers = ([], []) := buildRegistryAux_all_nil servers 0 ([], []) h
  have hmain : handle_chat_mode o env servers provider model rawInputs = .noTools := by
    unfold handle_chat_mode
    rw [hb]
    rfl
  exact ⟨hmain, by rw [hmain]; rfl⟩

/-- C10: the `provider` and `model` parameters of the chat-mode entry point
never influence the loop: any two values produce identical results, and the
model client is configured from `LLM_PROVIDER`/`LLM_MODEL`, defaulting to
"openai" and "gpt-4o-mini" when the variables are unset. -/
theorem params_independent :
    (∀ (o : Oracle) (env : Env) (servers : List (List Tool)) (p1 m1 p2 m2 : String)
        (rawInputs : List String),
      handle_chat_mode o env servers p1 m1 rawInputs
        = handle_chat_mode o env servers p2 m2 rawInputs) ∧
    clientConfig ⟨none, none⟩ = ("openai", "gpt-4o-mini") :=
  ⟨fun _ _ _ _ _ _ _ _ => rfl, rfl⟩

/-! ### Concrete rounds: counterexamples and witnesses -/

def tcAdd : ToolCall := ⟨"c1", some ⟨some (some "add"), some (some "good")⟩⟩
def tcSub : ToolCall := ⟨"c2", some ⟨some (some "subtract"), some (some "good")⟩⟩
def tcNil : ToolCall := ⟨"c3", some ⟨some none, some none⟩⟩
def tcBad : ToolCall := ⟨"c4", some ⟨some (some "add"), some (some "not json")⟩⟩

def regW : Registry := [("add", 0)]

def compW : Completion := ⟨some "working", [tcAdd, tcSub, tcNil]⟩

def oW : Oracle where
  createCompletion := fun _ _ h => if h.length == 1 then .ok compW else .ok ⟨some "done", []⟩
  parseJson := fun s => if s == "good" then .ok Args.empty else .error "Expecting value"
  sendCallTool := fun _ _ _ => .ok ⟨false, none, some (some "4")⟩
  systemPrompt := fun _ => "sys"

def stW : List StoredCall :=
  [⟨"c1", some "add", some "good"⟩, ⟨"c2", some "subtract", some "good"⟩, ⟨"c3", none, none⟩]
def rsW : List ToolResponse := [⟨"c1", "add", some "4"⟩]
def devsW : List Event := [Event.backendCall 0 "add" Args.empty]

/-- C2 counterexample: with three requested calls of which one is nameless and
one targets an unregistered tool, only one ToolResult turn is appended, not
the N minus malformed = 2 turns the claim predicts. -/
theorem toolResultCount_counterexample :
    toolTurnCount (processRound oW "openai" "gpt-4o-mini" regW [] "hi").hist = 1 ∧
    compW.tool_calls.length - compW.tool_calls.countP isMalformed = 2 ∧
    (1 : Nat) ≠ 2 :=
  ⟨rfl, rfl, by decide⟩

/-- Witness for C2 (amended) at a concrete three-call round. -/
theorem toolResult_turns_shape_witness :
    processRound oW "openai" "gpt-4o-mini" regW [] "hi" =
      ⟨.completed,
       [] ++ [Turn.user "hi"] ++ [Turn.assistant (assistantText compW) stW] ++ rsW.map toTurn
         ++ [Turn.assistant (followupText (Completion.mk (some "done") []).response) []],
       Event.llmCall ([] ++ [Turn.user "hi"]) :: devsW
         ++ [Event.llmCall ([] ++ [Turn.user "hi"] ++ [Turn.assistant (assistantText compW) stW]
              ++ rsW.map toTurn)]⟩ ∧
    rsW.map (fun r => (r.tool_call_id, r.name))
      = compW.tool_calls.filterMap (fun tc => (dispatchedName regW tc).map (fun n => (tc.id, n))) ∧
    rsW.length = compW.tool_calls.length - compW.tool_calls.countP isMalformed
      - compW.tool_calls.countP (fun tc => isNotFound regW tc) :=
  toolResult_turns_shape (by decide) (by decide) rfl rfl rfl rfl rfl

def compB : Completion := ⟨some "calling", [tcSub]⟩
def stB : List StoredCall := [⟨"c2", some "subtract", some "good"⟩]

def oB : Oracle where
  createCompletion := fun _ _ h => if h.length == 1 then .ok compB else .ok ⟨some "done", []⟩
  parseJson := fun s => if s == "good" then .ok Args.empty else .error "Expecting value"
  sendCallTool := fun _ _ _ => .ok ⟨false, none, some (some "4")⟩
  systemPrompt := fun _ => "sys"

/-- C1 counterexample (spec scenario B): the model requests only the unknown
tool "subtract"; the round completes and the followup proceeds, but NO
ToolResult turn at all is appended — in particular none whose content is
"tool not found" — and no backend call for it occurs. -/
theorem unknownTool_claim_counterexample :
    (processRound oB "openai" "gpt-4o-mini" regW [] "hi").status = .completed ∧
    toolTurnCount (processRound oB "openai" "gpt-4o-mini" regW [] "hi").hist = 0 ∧
    (processRound oB "openai" "gpt-4o-mini" regW [] "hi").events.countP
      (callsTool "subtract") = 0 :=
  ⟨rfl, rfl, rfl⟩

/-- Witness for C1 (amended) at the scenario-B round. -/
theorem unknownTool_skipped_witness :
    processRound oB "openai" "gpt-4o-mini" regW [] "hi" =
      ⟨.completed,
       [] ++ [Turn.user "hi"] ++ [Turn.assistant (assistantText compB) stB]
         ++ ([] : List ToolResponse).map toTurn
         ++ [Turn.assistant (followupText (Completion.mk (some "done") []).response) []],
       Event.llmCall ([] ++ [Turn.user "hi"]) :: ([] : List Event)
         ++ [Event.llmCall ([] ++ [Turn.user "hi"] ++ [Turn.assistant (assistantText compB) stB]
              ++ ([] : List ToolResponse).map toTurn)]⟩ ∧
    ([] : List ToolResponse).countP (fun r => r.name == "subtract") = 0 ∧
    (Event.llmCall ([] ++ [Turn.user "hi"]) :: ([] : List Event)
       ++ [Event.llmCall ([] ++ [Turn.user "hi"] ++ [Turn.assistant (assistantText compB) stB]
            ++ ([] : List ToolResponse).map toTurn)]).countP (callsTool "subtract") = 0 :=
  unknownTool_skipped (by decide) (by decide) rfl rfl rfl rfl rfl rfl

def oP : Oracle where
  createCompletion := fun _ _ _ => .error "unused"
  parseJson := fun s => if s == "good" then .ok Args.empty else .error "Expecting value"
  sendCallTool := fun _ _ _ => .ok ⟨false, none, some (some "seven")⟩
  systemPrompt := fun _ => "sys"

/-- C3 counterexample: on a parse failure the backend IS invoked (exactly one
backend event for the tool is emitted) and the produced response is the
backend's success content, not a parse-error result. -/
theorem parseFailure_counterexample :
    dispatchCall oP regW tcBad
      = (.ok (some ⟨"c4", "add", some "seven"⟩),
         [Event.backendCall 0 "add" Args.empty]) ∧
    (dispatchCall oP regW tcBad).2.countP (callsTool "add") = 1 :=
  ⟨rfl, rfl⟩

/-- Witness for C3 (amended) at a concrete unparsable argument string. -/
theorem parseFailure_invokes_backend_witness :
    parsedArguments oP (some "not json") = Args.empty ∧
    dispatchCall oP regW tcBad
      = (.ok (some ⟨"c4", "add", some "seven"⟩),
         [Event.backendCall 0 "add" Args.empty]) :=
  parseFailure_invokes_backend rfl rfl (by decide) rfl rfl (by decide) rfl rfl rfl rfl

def oE : Oracle where
  createCompletion := fun _ _ _ => .error "unused"
  parseJson := fun s => if s == "good" then .ok Args.empty else .error "Expecting value"
  sendCallTool := fun _ _ _ => .ok ⟨true, some "boom", none⟩
  systemPrompt := fun _ => "sys"

def oEmptyErr : Oracle where
  createCompletion := fun _ _ _ => .error "unused"
  parseJson := fun s => if s == "good" then .ok Args.empty else .error "Expecting value"
  sendCallTool := fun _ _ _ => .ok ⟨true, some "", none⟩
  systemPrompt := fun _ => "sys"

/-- C5 counterexample: when the backend's error string is present but EMPTY,
no default placeholder is substituted: the ToolResult content is exactly
"Error: ", not "Error: " followed by a placeholder. -/
theorem emptyError_counterexample :
    dispatchCall oEmptyErr regW tcAdd
      = (.ok (some ⟨"c1", "add", some "Error: "⟩),
         [Event.backendCall 0 "add" Args.empty]) ∧
    ("Error: " : String) ≠ "Error: Unknown error" :=
  ⟨rfl, by decide⟩

/-- Witness for C5 (amended) with a present, non-empty backend error string. -/
theorem backendError_message_witness :
    dispatchCall oE regW tcAdd
      = (.ok (some ⟨"c1", "add",
           some ("Error: " ++ (Option.getD (some "boom") "Unknown error"))⟩),
         [Event.backendCall 0 "add" Args.empty]) ∧
    toTurn ⟨"c1", "add", some ("Error: " ++ (Option.getD (some "boom") "Unknown error"))⟩
      = Turn.tool "c1" "add" ("Error: " ++ (Option.getD (some "boom") "Unknown error")) :=
  backendError_message
    (rfl : tcAdd.function = some ⟨some (some "add"), some (some "good")⟩)
    (rfl : (⟨some (some "add"), some (some "good")⟩ : ToolFunction).name = some (some "add"))
    (by decide)
    (rfl : registryLookup regW "add" = some 0)
    (rfl : (⟨some (some "add"), some (some "good")⟩ : ToolFunction).arguments
      = some (some "good"))
    (by decide : ("good" : String) ≠ "")
    (rfl : oE.parseJson "good" = .ok Args.empty)
    (rfl : oE.sendCallTool 0 "add" Args.empty = .ok ⟨true, some "boom", none⟩)
    rfl

def compF : Completion := ⟨some "", [tcAdd]⟩
def compF2 : Completion := ⟨some "", [tcSub]⟩
def stF : List StoredCall := [⟨"c1", some "add", some "good"⟩]
def rsF : List ToolResponse := [⟨"c1", "add", some "4"⟩]
def devsF : List Event := [Event.backendCall 0 "add" Args.empty]

def oF : Oracle where
  createCompletion := fun _ _ h => if h.length == 1 then .ok compF else .ok compF2
  parseJson := fun s => if s == "good" then .ok Args.empty else .error "Expecting value"
  sendCallTool := fun _ _ _ => .ok ⟨false, none, some (some "4")⟩
  systemPrompt := fun _ => "sys"

/-- Witness for C6: the followup completion itself requests a further tool
call and returns empty text; the round still completes with the default final
message and no further dispatch phase. -/
theorem followup_is_final_witness :
    processRound oF "openai" "gpt-4o-mini" regW [] "hi" =
      ⟨.completed,
       [] ++ [Turn.user "hi"] ++ [Turn.assistant (assistantText compF) stF] ++ rsF.map toTurn
         ++ [Turn.assistant (followupText compF2.response) []],
       Event.llmCall ([] ++ [Turn.user "hi"]) :: devsF
         ++ [Event.llmCall ([] ++ [Turn.user "hi"] ++ [Turn.assistant (assistantText compF) stF]
              ++ rsF.map toTurn)]⟩ ∧
    followupText none = "I processed the tool responses but have nothing specific to add." ∧
    followupText (some "")
      = "I processed the tool responses but have nothing specific to add." :=
  followup_is_final (by decide) (by decide) rfl rfl rfl rfl rfl

def oDown : Oracle where
  createCompletion := fun _ _ _ => .error "connection refused"
  parseJson := fun _ => .error "unused"
  sendCallTool := fun _ _ _ => .error "unused"
  systemPrompt := fun _ => "sys"

/-- Witness for C7: "QUIT" exits the round immediately with no external call;
a session fed an erroring round and then "exit" reports an exit keyword among
its inputs; and a round that caught an exception continues the loop. -/
theorem session_exit_only_witness :
    processRound oDown "openai" "gpt-4o-mini" regW [] "QUIT" = ⟨.exited, [], []⟩ ∧
    (∃ raw ∈ ["ask", "exit"],
      pyLower (readUserMessage raw) = "exit" ∨ pyLower (readUserMessage raw) = "quit") ∧
    sessionLoop oDown "openai" "gpt-4o-mini" regW ["boom"] [] =
      ⟨(sessionLoop oDown "openai" "gpt-4o-mini" regW []
          (processRound oDown "openai" "gpt-4o-mini" regW [] (readUserMessage "boom")).hist).hist,
       (processRound oDown "openai" "gpt-4o-mini" regW [] (readUserMessage "boom")).events
         ++ (sessionLoop oDown "openai" "gpt-4o-mini" regW []
              (processRound oDown "openai" "gpt-4o-mini" regW []
                (readUserMessage "boom")).hist).events,
       (sessionLoop oDown "openai" "gpt-4o-mini" regW []
          (processRound oDown "openai" "gpt-4o-mini" regW []
            (readUserMessage "boom")).hist).exited⟩ :=
  ⟨session_exit_only.1 oDown "openai" "gpt-4o-mini" regW [] "QUIT" (Or.inr (by decide)),
   session_exit_only.2.1 oDown "openai" "gpt-4o-mini" regW ["ask", "exit"] [] (by decide),
   session_exit_only.2.2 oDown "openai" "gpt-4o-mini" regW "boom" [] [] "connection refused"
     (by decide)⟩

/-- Witness for C9 with two connected backends both exposing zero tools. -/
theorem noTools_terminates_witness :
    handle_chat_mode oDown ⟨none, none⟩ [[], []] "openai" "gpt-4o-mini" ["hello"] = .noTools ∧
    (handle_chat_mode oDown ⟨none, none⟩ [[], []] "openai" "gpt-4o-mini" ["hello"]).events
      = [] :=
  noTools_terminates oDown ⟨none, none⟩ [[], []] "openai" "gpt-4o-mini" ["hello"] (by decide)

end McpCli
